import Mathlib

/-!
Verification of the tyedev template-materialization core against its
specification.

The development shallowly embeds the relevant Rust code:

* `src/registry.rs` — the typed index model (`DevOption`, `Feature`,
  `Template`, `Collection`, `DevcontainerIndex`), `configured_default`,
  the deprecation-filtered iterators, and `read_devcontainer_index`.
* `src/init.rs` — `FeatureEntryBuilder`, placeholder substitution,
  single-file eligibility, the feature-merge step, the tab-indented
  serializer, and `create_empty_start_point` / `apply_context_and_features`.

Modelling conventions:

* JSON documents (`serde_json::Value`) are the inductive `Json` below.
  Objects are association lists in document order; numbers are integers
  (no claim under verification involves fractional numbers).
* Byte strings (`Vec<u8>` / `&[u8]`) are `List Nat`, one byte per element.
  String contents appearing in the claims are ASCII, so a `String` is
  converted to bytes as the list of its character codes.
* Rust `HashMap` / serde `Map` values are association lists; `insert`
  replaces the value of an existing key in place and otherwise appends,
  which matches the key/value semantics of both map types.
* The serde-derived decoders for `SourceInformation` / `Feature` /
  `Template` are parameters of `read_devcontainer_index` (the control flow
  of that function never inspects their internals); executable sample
  decoders covering the core schema fields instantiate them on concrete
  inputs.
* `serde_jsonc::from_slice` (an external crate) is likewise a parameter of
  the materialization walk.
* The tar layer (external `tar` crate) is abstracted to its entry stream:
  an archive is the list of its entries (path components, entry type,
  content bytes), exactly the data `apply_context_and_features` consumes.
* Filesystem writes are reified as a list of `FsAction` values in the
  order the code performs them.
-/

/-- Model of `serde_json::Value`. Object fields are kept in document order. -/
inductive Json where
  | null : Json
  | bool (b : Bool) : Json
  | num (n : Int) : Json
  | str (s : String) : Json
  | arr (items : List Json) : Json
  | obj (fields : List (String × Json)) : Json

/-- Association-list lookup (string keys), first match wins. -/
def lookupAL {α : Type} : List (String × α) → String → Option α
  | [], _ => none
  | (k', v) :: tl, k => if k' = k then some v else lookupAL tl k

/-- Association-list insert: replace the value of an existing key in place,
otherwise append. This is the key/value behaviour of Rust's `HashMap::insert`
and serde's `Map::insert`. -/
def insertAL {α : Type} : List (String × α) → String → α → List (String × α)
  | [], k, v => [(k, v)]
  | (k', v') :: tl, k, v => if k' = k then (k', v) :: tl else (k', v') :: insertAL tl k v

/-- `Map::extend`: insert every pair of `adds` in order. -/
def extendAL {α : Type} (m adds : List (String × α)) : List (String × α) :=
  adds.foldl (fun acc p => insertAL acc p.1 p.2) m

/-- Replace the value stored under `k` without touching other keys
(the effect of mutating through `get_mut`). -/
def updateAL {α : Type} (m : List (String × α)) (k : String) (v : α) : List (String × α) :=
  m.map (fun p => if p.1 = k then (k, v) else p)

/-- The keys of an association list. -/
def keysAL {α : Type} (m : List (String × α)) : List String :=
  m.map (fun p => p.1)

/-- `Value::get(key)`: field lookup, `none` when the value is not an object. -/
def Json.get : Json → String → Option Json
  | .obj fields, k => lookupAL fields k
  | _, _ => none

/-- `Value::as_array()`. -/
def Json.asArr : Json → Option (List Json)
  | .arr items => some items
  | _ => none

/-- `Value::as_object()` (the field list of an object). -/
def Json.asObj : Json → Option (List (String × Json))
  | .obj fields => some fields
  | _ => none

/-- `BooleanDefaultType` from `src/registry.rs` (untagged: string or bool). -/
inductive BooleanDefaultType where
  | string (s : String) : BooleanDefaultType
  | boolean (b : Bool) : BooleanDefaultType
deriving DecidableEq

/-- `StringDevOption` from `src/registry.rs`: the enum shape (required
`default` and `enum` fields) or the proposals shape (optional `default`,
optional `proposals`). -/
inductive StringDevOption where
  | enumValues (default : String) (description : Option String) (enum_values : List String) : StringDevOption
  | proposals (default : Option String) (description : Option String) (proposals : Option (List String)) : StringDevOption
deriving DecidableEq

/-- `DevOption` from `src/registry.rs` (tagged by `type`). -/
inductive DevOption where
  | boolean (default : BooleanDefaultType) (description : Option String) : DevOption
  | string (s : StringDevOption) : DevOption
deriving DecidableEq

/-- `DevOption::configured_default` (src/registry.rs:213-228). The Rust
`bool::to_string` is Lean's `toString : Bool → String`. -/
def DevOption.configured_default : DevOption → String
  | .boolean (.string s) _ => s
  | .boolean (.boolean b) _ => toString b
  | .string (.proposals default _ proposals) =>
      ((default.orElse (fun _ => proposals.bind List.head?)).getD "")
  | .string (.enumValues default _ _) => default

/-- `SourceInformation` from `src/registry.rs`. -/
structure SourceInformation where
  name : String
  maintainer : String
  contact : String
  repository : String
  oci_reference : String
deriving DecidableEq

/-- `TemplateType` from `src/registry.rs`. -/
inductive TemplateType where
  | image : TemplateType
  | dockerfile : TemplateType
  | dockerCompose : TemplateType
deriving DecidableEq

/-- `Feature` from `src/registry.rs`, restricted to the fields the verified
claims inspect (`id`, `version`, `name`, `options`, `deprecated`, `owner`,
`major_version`); the remaining fields are optional presentational metadata
never read by the code under verification. Option maps are association
lists standing for `HashMap<String, DevOption>`. -/
structure Feature where
  id : String
  version : String
  name : String
  options : Option (List (String × DevOption))
  deprecated : Option Bool
  owner : String
  major_version : String
deriving DecidableEq

/-- `Template` from `src/registry.rs`, restricted to the fields the verified
claims inspect. `file_count` is the Rust `Option<i32>`. -/
structure Template where
  id : String
  version : String
  name : String
  options : Option (List (String × DevOption))
  template_type : Option TemplateType
  file_count : Option Int
  owner : String
deriving DecidableEq

/-- `Collection` from `src/registry.rs`. -/
structure Collection where
  source_information : SourceInformation
  features : List Feature
  templates : List Template
deriving DecidableEq

/-- `DevcontainerIndex` from `src/registry.rs`. -/
structure DevcontainerIndex where
  collections : List Collection
deriving DecidableEq

/-- Unicode-free model of Rust `String::to_lowercase` (the inputs
under verification are ASCII). -/
def stringToLowercase (s : String) : String :=
  String.mk (s.data.map Char.toLower)

/-- Rust `str::contains(needle)` as substring containment. -/
def stringContainsSub (hay needle : String) : Bool :=
  decide (needle.data <:+: hay.data)

/-- The collection-level deprecation heuristic of
`DevcontainerIndex::iter_templates` (src/registry.rs:395-401): a collection
is deprecated when its maintainer, lowercased, contains "deprecated". -/
def collectionDeprecatedByMaintainer (c : Collection) : Bool :=
  stringContainsSub (stringToLowercase c.source_information.maintainer) "deprecated"

/-- The per-feature predicate of `iter_features` (src/registry.rs:380):
`feature.deprecated.map_or(true, Not::not)`. -/
def Feature.notDeprecatedFlag (f : Feature) : Bool :=
  match f.deprecated with
  | none => true
  | some d => !d

/-- `DevcontainerIndex::iter_features` (src/registry.rs:378-386): flatten all
collections' features, then filter (`all` when deprecated entries are
included, else the per-feature flag test). -/
def DevcontainerIndex.iter_features (idx : DevcontainerIndex) (include_deprecated : Bool) : List Feature :=
  (idx.collections.flatMap (fun c => c.features)).filter
    (fun f => if include_deprecated then true else f.notDeprecatedFlag)

/-- `DevcontainerIndex::iter_templates` (src/registry.rs:392-407): filter the
collections (`all` or the maintainer heuristic), then flatten their
templates. -/
def DevcontainerIndex.iter_templates (idx : DevcontainerIndex) (include_deprecated : Bool) : List Template :=
  (idx.collections.filter
      (fun c => if include_deprecated then true else !collectionDeprecatedByMaintainer c)).flatMap
    (fun c => c.templates)

/-- `DevcontainerIndex::get_feature` (src/registry.rs:388-390). -/
def DevcontainerIndex.get_feature (idx : DevcontainerIndex) (feature_id : String) : Option Feature :=
  (idx.iter_features true).find? (fun f => f.id == feature_id)

/-- `DevcontainerIndex::get_template` (src/registry.rs:409-411). -/
def DevcontainerIndex.get_template (idx : DevcontainerIndex) (template_id : String) : Option Template :=
  (idx.iter_templates true).find? (fun t => t.id == template_id)

/-- One iteration of the `filter_map` closure of `read_devcontainer_index`
(src/registry.rs:479-548), parameterized by the serde-derived decoders
`pS`/`pF`/`pT`: parse `sourceInformation` first (failure skips the whole
collection), then require `features` and `templates` to be arrays (failure
skips the whole collection), then decode each element individually,
dropping only the elements that fail. -/
def parseCollection (pS : Json → Option SourceInformation)
    (pF : Json → Option Feature) (pT : Json → Option Template)
    (v : Json) : Option Collection := do
  let source_information ← (v.get "sourceInformation").bind pS
  let featureValues ← (v.get "features").bind Json.asArr
  let features := featureValues.filterMap pF
  let templateValues ← (v.get "templates").bind Json.asArr
  let templates := templateValues.filterMap pT
  pure { source_information := source_information, features := features, templates := templates }

/-- `read_devcontainer_index` (src/registry.rs:463-563) after the file read:
the document must be an object with a `collections` array (otherwise the
`InvalidData` error "Unexpected json shape"), and each collection element
goes through the fallible `parseCollection` step, skipped entirely on
failure. -/
def read_devcontainer_index (pS : Json → Option SourceInformation)
    (pF : Json → Option Feature) (pT : Json → Option Template)
    (doc : Json) : Except String DevcontainerIndex :=
  match (doc.asObj.bind (fun fields => lookupAL fields "collections")).bind Json.asArr with
  | none => .error "Unexpected json shape"
  | some arr => .ok { collections := arr.filterMap (parseCollection pS pF pT) }

/-- `Value::as_str()`. -/
def Json.asStr : Json → Option String
  | .str s => some s
  | _ => none

/-- `Value::as_bool()`. -/
def Json.asBool : Json → Option Bool
  | .bool b => some b
  | _ => none

/-- `Value::as_i64()` on the integer model. -/
def Json.asInt : Json → Option Int
  | .num n => some n
  | _ => none

/-- Executable decoder modelling the serde derive for `SourceInformation`
(all five fields required strings); used to instantiate the decoder
parameters of `read_devcontainer_index` on concrete inputs. -/
def sampleParseSourceInformation (v : Json) : Option SourceInformation := do
  let name ← (v.get "name").bind Json.asStr
  let maintainer ← (v.get "maintainer").bind Json.asStr
  let contact ← (v.get "contact").bind Json.asStr
  let repository ← (v.get "repository").bind Json.asStr
  let oci_reference ← (v.get "ociReference").bind Json.asStr
  pure { name := name, maintainer := maintainer, contact := contact,
         repository := repository, oci_reference := oci_reference }

/-- Untagged `BooleanDefaultType` decoder: a string or a bool. -/
def sampleParseBooleanDefault : Json → Option BooleanDefaultType
  | .str s => some (.string s)
  | .bool b => some (.boolean b)
  | _ => none

/-- Decoder for a JSON array of strings. -/
def sampleParseStringList (v : Json) : Option (List String) :=
  v.asArr.bind (fun xs => xs.mapM Json.asStr)

/-- Executable decoder modelling the serde derive for `DevOption` (tagged by
`type`; the string shapes are untagged with the enum shape tried first). -/
def sampleParseDevOption (v : Json) : Option DevOption := do
  let t ← (v.get "type").bind Json.asStr
  if t = "boolean" then
    let d ← (v.get "default").bind sampleParseBooleanDefault
    pure (.boolean d ((v.get "description").bind Json.asStr))
  else if t = "string" then
    match (v.get "default").bind Json.asStr, (v.get "enum").bind sampleParseStringList with
    | some d, some e =>
        pure (.string (.enumValues d ((v.get "description").bind Json.asStr) e))
    | _, _ =>
        pure (.string (.proposals ((v.get "default").bind Json.asStr)
          ((v.get "description").bind Json.asStr)
          ((v.get "proposals").bind sampleParseStringList)))
  else none

/-- Decoder for an `options` object (map name → DevOption). -/
def sampleParseOptions (v : Json) : Option (List (String × DevOption)) :=
  v.asObj.bind (fun fields =>
    fields.mapM (fun p => (sampleParseDevOption p.2).map (fun o => (p.1, o))))

/-- Executable decoder modelling the serde derive for `Feature` on the
modelled fields (`id`, `version`, `name`, `owner`, `majorVersion` required;
`deprecated` and `options` optional but type-checked when present). -/
def sampleParseFeature (v : Json) : Option Feature := do
  let id ← (v.get "id").bind Json.asStr
  let version ← (v.get "version").bind Json.asStr
  let name ← (v.get "name").bind Json.asStr
  let owner ← (v.get "owner").bind Json.asStr
  let major_version ← (v.get "majorVersion").bind Json.asStr
  let deprecated ← match v.get "deprecated" with
    | none => some none
    | some j => j.asBool.map some
  let options ← match v.get "options" with
    | none => some none
    | some j => (sampleParseOptions j).map some
  pure { id := id, version := version, name := name, options := options,
         deprecated := deprecated, owner := owner, major_version := major_version }

/-- `TemplateType` decoder (serde camelCase tags). -/
def sampleParseTemplateType : Json → Option TemplateType
  | .str s =>
      if s = "image" then some .image
      else if s = "dockerfile" then some .dockerfile
      else if s = "dockerCompose" then some .dockerCompose
      else none
  | _ => none

/-- Executable decoder modelling the serde derive for `Template` on the
modelled fields (`id`, `version`, `name`, `owner` required; `type`,
`fileCount`, `options` optional but type-checked when present). -/
def sampleParseTemplate (v : Json) : Option Template := do
  let id ← (v.get "id").bind Json.asStr
  let version ← (v.get "version").bind Json.asStr
  let name ← (v.get "name").bind Json.asStr
  let owner ← (v.get "owner").bind Json.asStr
  let template_type ← match v.get "type" with
    | none => some none
    | some j => (sampleParseTemplateType j).map some
  let file_count ← match v.get "fileCount" with
    | none => some none
    | some j => j.asInt.map some
  let options ← match v.get "options" with
    | none => some none
    | some j => (sampleParseOptions j).map some
  pure { id := id, version := version, name := name, options := options,
         template_type := template_type, file_count := file_count, owner := owner }

/-- Concrete two-collection index body: the first collection's second
feature is malformed (missing `id`), the second collection's first template
is malformed (`fileCount` is a string). -/
def c1Items : List Json :=
  [ .obj [ ("sourceInformation", .obj
             [ ("name", .str "c1"), ("maintainer", .str "m1"),
               ("contact", .str "t1"), ("repository", .str "r1"),
               ("ociReference", .str "ghcr.io/one") ]),
           ("features", .arr
             [ .obj [ ("id", .str "good-feature"), ("version", .str "1.0.0"),
                      ("name", .str "Good"), ("owner", .str "o"),
                      ("majorVersion", .str "1") ],
               .obj [ ("version", .str "2.0.0"), ("name", .str "Bad"),
                      ("owner", .str "o"), ("majorVersion", .str "2") ] ]),
           ("templates", .arr
             [ .obj [ ("id", .str "good-template"), ("version", .str "1.0.0"),
                      ("name", .str "GoodT"), ("owner", .str "o") ] ]) ],
    .obj [ ("sourceInformation", .obj
             [ ("name", .str "c2"), ("maintainer", .str "m2"),
               ("contact", .str "t2"), ("repository", .str "r2"),
               ("ociReference", .str "ghcr.io/two") ]),
           ("features", .arr
             [ .obj [ ("id", .str "solo-feature"), ("version", .str "3.0.0"),
                      ("name", .str "Solo"), ("owner", .str "o"),
                      ("majorVersion", .str "3") ] ]),
           ("templates", .arr
             [ .obj [ ("id", .str "bad-template"), ("version", .str "1.0.0"),
                      ("name", .str "BadT"), ("owner", .str "o"),
                      ("fileCount", .str "four") ],
               .obj [ ("id", .str "kept-template"), ("version", .str "1.0.0"),
                      ("name", .str "KeptT"), ("owner", .str "o") ] ]) ] ]

/-- The index document wrapping `c1Items`. -/
def c1Doc : Json := .obj [("collections", Json.arr c1Items)]

/-- The index expected from parsing `c1Doc`: both collections kept, only the
malformed feature/template elements dropped. -/
def c1Expected : DevcontainerIndex :=
  { collections :=
    [ { source_information :=
          { name := "c1", maintainer := "m1", contact := "t1",
            repository := "r1", oci_reference := "ghcr.io/one" },
        features :=
          [ { id := "good-feature", version := "1.0.0", name := "Good",
              options := none, deprecated := none, owner := "o",
              major_version := "1" } ],
        templates :=
          [ { id := "good-template", version := "1.0.0", name := "GoodT",
              options := none, template_type := none, file_count := none,
              owner := "o" } ] },
      { source_information :=
          { name := "c2", maintainer := "m2", contact := "t2",
            repository := "r2", oci_reference := "ghcr.io/two" },
        features :=
          [ { id := "solo-feature", version := "3.0.0", name := "Solo",
              options := none, deprecated := none, owner := "o",
              major_version := "3" } ],
        templates :=
          [ { id := "kept-template", version := "1.0.0", name := "KeptT",
              options := none, template_type := none, file_count := none,
              owner := "o" } ] } ] }

/-- A well-formed collection element with empty feature/template arrays,
named by its source name. -/
def c10Element (nm ref : String) : Json :=
  .obj [ ("sourceInformation", .obj
           [ ("name", .str nm), ("maintainer", .str "m"),
             ("contact", .str "t"), ("repository", .str "r"),
             ("ociReference", .str ref) ]),
         ("features", .arr []), ("templates", .arr []) ]

/-- A collection element with a valid `sourceInformation` but a
string-valued `features` field. -/
def c10Bad : Json :=
  .obj [ ("sourceInformation", .obj
           [ ("name", .str "mid"), ("maintainer", .str "m"),
             ("contact", .str "t"), ("repository", .str "r"),
             ("ociReference", .str "ghcr.io/mid") ]),
         ("features", .str "not-an-array"),
         ("templates", .arr []) ]

/-- Index document whose middle collection element is `c10Bad`. -/
def c10Fields : List (String × Json) :=
  [("collections", Json.arr
    [ c10Element "first" "ghcr.io/first", c10Bad, c10Element "last" "ghcr.io/last" ])]

/-- The index expected from parsing `c10Fields`: the middle collection is
dropped whole, its neighbours kept. -/
def c10Expected : DevcontainerIndex :=
  { collections :=
    [ { source_information :=
          { name := "first", maintainer := "m", contact := "t",
            repository := "r", oci_reference := "ghcr.io/first" },
        features := [], templates := [] },
      { source_information :=
          { name := "last", maintainer := "m", contact := "t",
            repository := "r", oci_reference := "ghcr.io/last" },
        features := [], templates := [] } ] }

/-- `DevOptionPromptValue` from `src/init.rs`: a resolved option value. -/
inductive DevOptionPromptValue where
  | string (s : String) : DevOptionPromptValue
  | boolean (b : Bool) : DevOptionPromptValue
deriving DecidableEq

/-- The `Display` impl of `DevOptionPromptValue` (src/init.rs:145-152). -/
def DevOptionPromptValue.toStr : DevOptionPromptValue → String
  | .string s => s
  | .boolean b => toString b

/-- `serde_json::to_value` on a resolved value (src/init.rs:294-297). -/
def DevOptionPromptValue.toJson : DevOptionPromptValue → Json
  | .string s => Json.str s
  | .boolean b => Json.bool b

/-- The merge-identity key `"{id}:{majorVersion}"` used by
`FeatureEntryBuilder` (src/init.rs:280, 313). -/
def featureKey (feature : Feature) : String :=
  feature.id ++ ":" ++ feature.major_version

/-- One iteration of the option loop in
`FeatureEntryBuilder::use_prompt_values` (src/init.rs:285-300): resolve the
option, skip it when its string form equals `configured_default()`, and
otherwise insert its JSON value under the option name. -/
def promptStep (resolve : String → DevOption → DevOptionPromptValue)
    (inner : List (String × Json)) (p : String × DevOption) : List (String × Json) :=
  let prompt_value := resolve p.1 p.2
  if prompt_value.toStr = p.2.configured_default then inner
  else insertAL inner p.1 prompt_value.toJson

/-- The inner object built by `use_prompt_values` for one feature. -/
def promptedEntries (feature : Feature)
    (resolve : String → DevOption → DevOptionPromptValue) : List (String × Json) :=
  (feature.options.getD []).foldl (promptStep resolve) []

/-- `FeatureEntryBuilder` from `src/init.rs` (the feature accumulator):
map `"id:majorVersion"` → JSON object of non-default option values. -/
structure FeatureEntryBuilder where
  features : List (String × Json)

/-- `FeatureEntryBuilder::use_prompt_values` (src/init.rs:278-309), with the
interactive prompt collaborator abstracted as the total `resolve` function
(a successful prompt round). -/
def FeatureEntryBuilder.use_prompt_values (fb : FeatureEntryBuilder) (feature : Feature)
    (resolve : String → DevOption → DevOptionPromptValue) : FeatureEntryBuilder :=
  { features := insertAL fb.features (featureKey feature)
      (Json.obj (promptedEntries feature resolve)) }

/-- `FeatureEntryBuilder::use_default_values` (src/init.rs:311-317): insert
an empty object under the feature's identity key. -/
def FeatureEntryBuilder.use_default_values (fb : FeatureEntryBuilder)
    (feature : Feature) : FeatureEntryBuilder :=
  { features := insertAL fb.features (featureKey feature) (Json.obj []) }

/-- `FeatureEntryBuilder::as_value` (src/init.rs:319-321). -/
def FeatureEntryBuilder.as_value (fb : FeatureEntryBuilder) : Json :=
  Json.obj fb.features

/-- `FeatureEntryBuilder::len` (src/init.rs:323-325). -/
def FeatureEntryBuilder.len (fb : FeatureEntryBuilder) : Nat :=
  fb.features.length

/-- One accumulator call in a session: a prompt round for a feature or an
accept-all-defaults round. -/
inductive FeatureEntryOp where
  | prompt (feature : Feature) (resolve : String → DevOption → DevOptionPromptValue) : FeatureEntryOp
  | defaults (feature : Feature) : FeatureEntryOp

/-- Apply one accumulator call. -/
def FeatureEntryBuilder.applyOp (fb : FeatureEntryBuilder) : FeatureEntryOp → FeatureEntryBuilder
  | .prompt feature resolve => fb.use_prompt_values feature resolve
  | .defaults feature => fb.use_default_values feature

/-- Apply a sequence of accumulator calls in order. -/
def FeatureEntryBuilder.runOps (fb : FeatureEntryBuilder) (ops : List FeatureEntryOp) : FeatureEntryBuilder :=
  ops.foldl FeatureEntryBuilder.applyOp fb

/-- Concrete feature for the C6 witness: a boolean option `moby` defaulting
to "true" and a proposals option `version` defaulting to "latest". -/
def c6Feature : Feature :=
  { id := "docker-in-docker", version := "2.0.0", name := "Docker in Docker",
    options := some
      [ ("moby", DevOption.boolean (.string "true") none),
        ("version", DevOption.string (.proposals (some "latest") none none)) ],
    deprecated := none, owner := "devcontainers", major_version := "2" }

/-- Concrete resolution for the C6 witness: `moby` resolves to `false`
(non-default), `version` resolves to its default "latest". -/
def c6Resolve : String → DevOption → DevOptionPromptValue :=
  fun name _ => if name = "moby" then .boolean false else .string "latest"

/-- `str::as_bytes` for the ASCII strings under verification: one byte per
character, the character's code. -/
def strBytes (s : String) : List Nat :=
  s.data.map Char.toNat

/-- `std::str::from_utf8` on the ASCII byte lists produced by the word-class
matcher (always valid UTF-8). -/
def bytesToStr (l : List Nat) : String :=
  String.mk (l.map Char.ofNat)

/-- The regex byte class `\s` (ASCII range: tab, LF, VT, FF, CR, space). -/
def isWsByte (b : Nat) : Bool :=
  b == 9 || b == 10 || b == 11 || b == 12 || b == 13 || b == 32

/-- The regex byte class `\w` (ASCII range: digits, letters, underscore). -/
def isWordByte (b : Nat) : Bool :=
  (48 ≤ b && b ≤ 57) || (65 ≤ b && b ≤ 90) || (97 ≤ b && b ≤ 122) || b == 95

/-- The literal head of the placeholder pattern
`\$\{templateOption:\s*(?<name>\w+)\s*\}` from
`TemplateBuilder::apply_context_and_features` (src/init.rs:451). -/
def templateOptionLit : List Nat :=
  strBytes "$\x7btemplateOption:"

/-- Leftmost match of the placeholder regex at the start of `l`: the literal
head, then `\s*`, then a nonempty run of `\w` bytes (the name), then `\s*`,
then the closing brace (byte 125). Returns the name bytes and the rest of
the input after the match. Because the three byte classes are disjoint and
the pattern ends at the brace, maximal-munch scanning is exactly the regex
semantics. -/
def matchPlaceholder (l : List Nat) : Option (List Nat × List Nat) :=
  if templateOptionLit.isPrefixOf l then
    if ((l.drop templateOptionLit.length).dropWhile isWsByte).takeWhile isWordByte = [] then
      none
    else
      match (((l.drop templateOptionLit.length).dropWhile isWsByte).dropWhile isWordByte).dropWhile isWsByte with
      | 125 :: tail =>
          some (((l.drop templateOptionLit.length).dropWhile isWsByte).takeWhile isWordByte, tail)
      | _ => none
  else none

/-- The `apply_context` closure (src/init.rs:452-469): decode the captured
name, look it up in the context, and replace with the value's bytes, or with
the empty byte string when the name is unbound. -/
def lookupReplacement (ctx : List (String × String)) (name : List Nat) : List Nat :=
  match lookupAL ctx (bytesToStr name) with
  | some value => strBytes value
  | none => []

/-- Fuelled scanner for `Regex::replace_all`: at each position, replace the
leftmost non-overlapping placeholder match, otherwise emit one byte and move
on. The fuel only makes the recursion structural; `substitute` supplies
`l.length`, which is always sufficient since every step consumes at least
one byte. -/
def substituteGo (ctx : List (String × String)) : Nat → List Nat → List Nat
  | _, [] => []
  | 0, l => l
  | fuel + 1, b :: rest =>
    match matchPlaceholder (b :: rest) with
    | some (name, tail) => lookupReplacement ctx name ++ substituteGo ctx fuel tail
    | none => b :: substituteGo ctx fuel rest

/-- `template_option_re.replace_all(bytes, apply_context)`
(src/init.rs:499): byte-level placeholder substitution. Total — substitution
itself never produces an error. -/
def substitute (ctx : List (String × String)) (l : List Nat) : List Nat :=
  substituteGo ctx l.length l

/-- `TemplateBuilder::is_single_file_eligible` (src/init.rs:422-447): no
config or no declared type → not eligible; `DockerCompose` / `Dockerfile` →
never eligible; `Image` → eligible unless `file_count` is known and `> 4`. -/
def is_single_file_eligible (config : Option Template) : Bool :=
  match config with
  | none => false
  | some template =>
      match template.template_type with
      | none => false
      | some .dockerCompose => false
      | some .dockerfile => false
      | some .image =>
          match template.file_count with
          | some count => if count > 4 then false else true
          | none => true

/-- Tar entry kinds the walk distinguishes (src/init.rs:487-537): `regular`
covers `EntryType::Regular | EntryType::Continuous`, `other` is every kind
the walk ignores. -/
inductive TarEntryType where
  | directory : TarEntryType
  | regular : TarEntryType
  | other : TarEntryType
deriving DecidableEq

/-- One decoded tar entry: relative path components, kind, content bytes. -/
structure TarEntry where
  path : List String
  entry_type : TarEntryType
  content : List Nat

/-- A filesystem effect of the walk, in program order. -/
inductive FsAction where
  | createDir (path : List String) : FsAction
  | writeFile (path : List String) (content : List Nat) : FsAction

/-- Rust `Path::ends_with`: the suffix must match whole trailing
components. Paths are modelled as component lists. -/
def pathEndsWith (p suffix : List String) : Bool :=
  suffix.reverse.isPrefixOf p.reverse

/-- `TemplateBuilder` from `src/init.rs` with the archive bytes abstracted
to their decoded entry stream. -/
structure TemplateBuilder where
  config : Option Template
  context : List (String × String)
  features : FeatureEntryBuilder
  entries : List TarEntry

/-- The feature-merge step on the parsed configuration document
(src/init.rs:511-521): a non-object top level is an `InvalidData` error;
an existing object-valued `features` key is extended in place with the
accumulated entries (accumulated entries win on key collision); otherwise a
`features` key is inserted holding exactly the accumulator's map. -/
def mergeFeaturesIntoConfig (value : Json) (fm : List (String × Json)) : Except String Json :=
  match value with
  | .obj fields =>
      match lookupAL fields "features" with
      | some (.obj fs) => .ok (.obj (updateAL fields "features" (.obj (extendAL fs fm))))
      | _ => .ok (.obj (insertAL fields "features" (.obj fm)))
  | _ => .error "Format of devcontainer.json is invalid"

/-- One lowercase hex digit (serde's escape table). -/
def hexDigit (n : Nat) : String :=
  if n < 10 then String.mk [Char.ofNat (48 + n)] else String.mk [Char.ofNat (87 + n)]

/-- serde_json string escaping for one character. -/
def escapeJsonChar (c : Char) : String :=
  if c = '"' then "\\\""
  else if c = '\\' then "\\\\"
  else if c = Char.ofNat 8 then "\\b"
  else if c = Char.ofNat 9 then "\\t"
  else if c = Char.ofNat 10 then "\\n"
  else if c = Char.ofNat 12 then "\\f"
  else if c = Char.ofNat 13 then "\\r"
  else if c.toNat < 32 then "\\u00" ++ hexDigit (c.toNat / 16) ++ hexDigit (c.toNat % 16)
  else String.mk [c]

/-- A JSON string literal with serde escaping. -/
def quoteJsonString (s : String) : String :=
  "\"" ++ s.data.foldl (fun acc c => acc ++ escapeJsonChar c) "" ++ "\""

/-- `depth` tab characters. -/
def tabsIndent : Nat → String
  | 0 => ""
  | n + 1 => tabsIndent n ++ "\t"

mutual
/-- Core of the tab-indented pretty printer
(`serde_json_pretty::to_writer_with_tabs`, src/init.rs:639-650:
`PrettyFormatter::with_indent(b"\t")`): serde's pretty format with one tab
per nesting level, `": "` after keys, `",\n"` between entries, and compact
`[]` / `\x7b\x7d` for empty containers. -/
def serializeTabsAt : Nat → Json → String
  | _, .null => "null"
  | _, .bool b => toString b
  | _, .num n => toString n
  | _, .str s => quoteJsonString s
  | _, .arr [] => "[]"
  | d, .arr (x :: xs) =>
      "[\n" ++ serializeItems (d + 1) (x :: xs) ++ "\n" ++ tabsIndent d ++ "]"
  | _, .obj [] => "\x7b\x7d"
  | d, .obj (p :: ps) =>
      "\x7b\n" ++ serializeFields (d + 1) (p :: ps) ++ "\n" ++ tabsIndent d ++ "\x7d"

def serializeItems : Nat → List Json → String
  | _, [] => ""
  | d, [x] => tabsIndent d ++ serializeTabsAt d x
  | d, x :: y :: tl =>
      tabsIndent d ++ serializeTabsAt d x ++ ",\n" ++ serializeItems d (y :: tl)

def serializeFields : Nat → List (String × Json) → String
  | _, [] => ""
  | d, [p] => tabsIndent d ++ quoteJsonString p.1 ++ ": " ++ serializeTabsAt d p.2
  | d, p :: q :: tl =>
      tabsIndent d ++ quoteJsonString p.1 ++ ": " ++ serializeTabsAt d p.2 ++ ",\n" ++
      serializeFields d (q :: tl)
end

/-- `serde_json_pretty::to_writer_with_tabs`: pretty printing with tab
indentation, from depth zero. -/
def serializeTabs (j : Json) : String :=
  serializeTabsAt 0 j

/-- The `template_skip` list of the walk (src/init.rs:472). -/
def template_skip : List String :=
  ["NOTES.md", "README.md", "devcontainer-template.json"]

/-- The walk's handling of one archive entry
(src/init.rs:474-538), with `serde_jsonc::from_slice` abstracted as
`parseJsonc`: skip the three template metadata files; create directories;
for regular files substitute placeholders, retarget the configuration file
when single-file mode applies, merge accumulated features through the
comment-tolerant parse when the accumulator is non-empty, and write. -/
def processEntry (parseJsonc : List Nat → Option Json) (tb : TemplateBuilder)
    (attempt_single_file : Bool) (workspace : List String) (entry : TarEntry) :
    Except String (List FsAction) :=
  let filename := workspace ++ entry.path
  if template_skip.any (fun name => pathEndsWith filename [name]) then
    .ok []
  else
    match entry.entry_type with
    | .directory => .ok [.createDir filename]
    | .regular =>
        let with_context := substitute tb.context entry.content
        if pathEndsWith filename [".devcontainer", "devcontainer.json"] ||
            pathEndsWith filename [".devcontainer.json"] then
          let filename :=
            if attempt_single_file && is_single_file_eligible tb.config then
              workspace ++ [".devcontainer.json"]
            else filename
          if tb.features.len > 0 then
            match parseJsonc with_context with
            | none => .error "Failed to parse devcontainer.json"
            | some value =>
                match mergeFeaturesIntoConfig value tb.features.features with
                | .error e => .error e
                | .ok merged => .ok [.writeFile filename (strBytes (serializeTabs merged))]
          else
            .ok [.writeFile filename with_context]
        else
          .ok [.writeFile filename with_context]
    | .other => .ok []

/-- The entry loop of `apply_context_and_features`: process entries in
order, aborting on the first error. -/
def collectActions (parseJsonc : List Nat → Option Json) (tb : TemplateBuilder)
    (attempt_single_file : Bool) (workspace : List String) :
    List TarEntry → Except String (List FsAction)
  | [] => .ok []
  | e :: tl => do
      let acts ← processEntry parseJsonc tb attempt_single_file workspace e
      let rest ← collectActions parseJsonc tb attempt_single_file workspace tl
      .ok (acts ++ rest)

/-- `TemplateBuilder::apply_context_and_features` (src/init.rs:449-544):
the filesystem actions of a successful walk over the builder's archive. -/
def apply_context_and_features (parseJsonc : List Nat → Option Json) (tb : TemplateBuilder)
    (attempt_single_file : Bool) (workspace : List String) : Except String (List FsAction) :=
  collectActions parseJsonc tb attempt_single_file workspace tb.entries

/-- The bytes of the synthesized `.devcontainer/devcontainer.json`
(src/init.rs:603). -/
def emptyStartPointConfigBytes : List Nat :=
  strBytes "\x7b\n\t\"name\": \"tyedev default\",\n\t\"image\": \"mcr.microsoft.com/devcontainers/base:$\x7btemplateOption:imageVariant\x7d\"\n\x7d\n"

/-- The bytes of the synthesized `devcontainer-template.json`
(`serde_json::to_string_pretty` of the template value, src/init.rs:611;
keys in serde_json's map order). The walk never reads these bytes — the
entry name is on the skip list. -/
def emptyStartPointTemplateBytes : List Nat :=
  strBytes "\x7b\n  \"fileCount\": 2,\n  \"id\": \"tyedev-base-template\",\n  \"name\": \"Base Template (tyedev)\",\n  \"options\": \x7b\n    \"imageVariant\": \x7b\n      \"default\": \"jammy\",\n      \"proposals\": [\n        \"bookworm\",\n        \"bullseye\",\n        \"jammy\",\n        \"focal\"\n      ],\n      \"type\": \"string\"\n    \x7d\n  \x7d,\n  \"owner\": \"CodeMan99\",\n  \"type\": \"image\",\n  \"version\": \"1.0.0\"\n\x7d"

/-- `TemplateBuilder::create_empty_start_point` (src/init.rs:546-636): the
synthesized archive holds a `.devcontainer/` directory entry, the one-line
configuration file with the `imageVariant` placeholder, and a
`devcontainer-template.json`; the parsed config is the declared template
value (string option `imageVariant`, default "jammy", four proposals,
type image, fileCount 2). -/
def create_empty_start_point : TemplateBuilder :=
  { config := some
      { id := "tyedev-base-template", version := "1.0.0",
        name := "Base Template (tyedev)",
        options := some
          [ ("imageVariant", DevOption.string (.proposals (some "jammy") none
              (some ["bookworm", "bullseye", "jammy", "focal"]))) ],
        template_type := some .image, file_count := some 2, owner := "CodeMan99" },
    context := [],
    features := { features := [] },
    entries :=
      [ { path := [".devcontainer"], entry_type := .directory, content := [] },
        { path := [".devcontainer", "devcontainer.json"], entry_type := .regular,
          content := emptyStartPointConfigBytes },
        { path := ["devcontainer-template.json"], entry_type := .regular,
          content := emptyStartPointTemplateBytes } ] }

/-- A minimal builder for the single-file-retarget scenarios: an Image
template with the given `fileCount` and one configuration-file entry. -/
def c4Builder (count : Int) : TemplateBuilder :=
  { config := some
      { id := "t", version := "1.0.0", name := "T", options := none,
        template_type := some .image, file_count := some count, owner := "o" },
    context := [], features := { features := [] },
    entries := [ { path := [".devcontainer", "devcontainer.json"],
                   entry_type := .regular, content := strBytes "\x7b\x7d" } ] }

/-- A builder holding one accumulated feature entry and a one-key
configuration file, for the merge demonstration. -/
def c5Builder : TemplateBuilder :=
  { config := none, context := [],
    features := { features := [("f:1", Json.obj [])] },
    entries := [ { path := [".devcontainer", "devcontainer.json"],
                   entry_type := .regular, content := strBytes "\x7b\x7d" } ] }

/-- Keep the first value when present, otherwise the second — the lookup
shape of `Map::extend` collisions. -/
def preferAL {α : Type} (new old : Option α) : Option α :=
  match new with
  | some v => some v
  | none => old

-- ===================== Theorems =====================

/-- Inserting under key `k` makes `k` resolve to the inserted value. -/
theorem lookupAL_insertAL_self {α : Type} (m : List (String × α)) (k : String) (v : α) :
    lookupAL (insertAL m k v) k = some v := by
  induction m with
  | nil => simp [insertAL, lookupAL]
  | cons p tl ih =>
      by_cases h : p.1 = k
      · simp [insertAL, h, lookupAL]
      · simp [insertAL, h, lookupAL, ih]

/-- Inserting under key `k` leaves every other key's value unchanged. -/
theorem lookupAL_insertAL_ne {α : Type} (m : List (String × α)) (k k' : String) (v : α)
    (h : k ≠ k') : lookupAL (insertAL m k v) k' = lookupAL m k' := by
  induction m with
  | nil => simp [insertAL, lookupAL, h]
  | cons p tl ih =>
      by_cases hp : p.1 = k
      · simp [insertAL, hp, lookupAL, h]
      · simp only [insertAL, if_neg hp, lookupAL]
        by_cases hk : p.1 = k'
        · simp [hk]
        · simp [hk, ih]

/-- Keys present before an insert are present after it. -/
theorem keysAL_insertAL_mono {α : Type} (m : List (String × α)) (k k' : String) (v : α)
    (h : k' ∈ keysAL m) : k' ∈ keysAL (insertAL m k v) := by
  induction m with
  | nil => simp [keysAL] at h
  | cons p tl ih =>
      by_cases hp : p.1 = k
      · simpa [insertAL, hp, keysAL] using (by simpa [keysAL, hp] using h)
      · simp only [keysAL, List.map_cons, List.mem_cons] at h
        rcases h with h | h
        · simp [insertAL, hp, keysAL, h]
        · simp only [insertAL, if_neg hp, keysAL, List.map_cons, List.mem_cons]
          exact Or.inr (ih h)

/-- An insert never shrinks the map. -/
theorem length_insertAL_ge {α : Type} (m : List (String × α)) (k : String) (v : α) :
    m.length ≤ (insertAL m k v).length := by
  induction m with
  | nil => simp [insertAL]
  | cons p tl ih =>
      by_cases hp : p.1 = k
      · simp [insertAL, hp]
      · simpa [insertAL, hp] using ih

/-- A `filterMap` whose function succeeds on every element preserves length. -/
theorem filterMap_length_all_some {α β : Type} (f : α → Option β) :
    ∀ l : List α, (∀ x ∈ l, (f x).isSome) → (l.filterMap f).length = l.length := by
  intro l
  induction l with
  | nil => intro _; rfl
  | cons x tl ih =>
      intro h
      have hx := h x (by simp)
      rcases Option.isSome_iff_exists.mp hx with ⟨y, hy⟩
      simp only [List.filterMap_cons, hy, List.length_cons]
      rw [ih (fun a ha => h a (by simp [ha]))]

/-- A feature's flag test equals the absence of an explicit `deprecated = true`. -/
theorem Feature.notDeprecatedFlag_eq_true_iff (f : Feature) :
    f.notDeprecatedFlag = true ↔ f.deprecated ≠ some true := by
  cases h : f.deprecated with
  | none => simp [Feature.notDeprecatedFlag, h]
  | some d => cases d <;> simp [Feature.notDeprecatedFlag, h]

/-- Claim C2: `configured_default` always yields a string as specified — a
Boolean option returns a stored string default unchanged and coerces a
stored JSON-boolean default to "true"/"false"; a StringProposals option
without a default returns the first proposal when proposals exist and the
empty string when they are absent; a StringEnum option returns its stored
default. -/
theorem claim_C2_configured_default :
    (∀ s d, DevOption.configured_default (.boolean (.string s) d) = s) ∧
    (∀ b d, DevOption.configured_default (.boolean (.boolean b) d) =
      (if b then "true" else "false")) ∧
    (∀ d p ps, DevOption.configured_default (.string (.proposals none d (some (p :: ps)))) = p) ∧
    (∀ d, DevOption.configured_default (.string (.proposals none d none)) = "") ∧
    (∀ dv d e, DevOption.configured_default (.string (.enumValues dv d e)) = dv) := by
  refine ⟨fun s d => rfl, fun b d => ?_, fun d p ps => rfl, fun d => rfl, fun dv d e => rfl⟩
  cases b <;> rfl

/-- Claim C9: with `include_deprecated = false`, `iter_templates` yields
exactly the templates of collections whose lowercased maintainer does not
contain "deprecated" (collection granularity — no condition on the template
itself), while `iter_features` filters per feature by that feature's own
`deprecated` flag, an absent flag counting as not deprecated. -/
theorem claim_C9_deprecated_filtering (idx : DevcontainerIndex) :
    (∀ t : Template, t ∈ idx.iter_templates false ↔
      ∃ c ∈ idx.collections, collectionDeprecatedByMaintainer c = false ∧ t ∈ c.templates) ∧
    (∀ f : Feature, f ∈ idx.iter_features false ↔
      (∃ c ∈ idx.collections, f ∈ c.features) ∧ f.deprecated ≠ some true) := by
  constructor
  · intro t
    simp only [DevcontainerIndex.iter_templates, List.mem_flatMap, List.mem_filter]
    constructor
    · rintro ⟨c, ⟨hc, hdep⟩, ht⟩
      exact ⟨c, hc, by simpa using hdep, ht⟩
    · rintro ⟨c, hc, hdep, ht⟩
      exact ⟨c, ⟨hc, by simpa using hdep⟩, ht⟩
  · intro f
    simp only [DevcontainerIndex.iter_features, List.mem_filter, List.mem_flatMap,
      Bool.false_eq_true, if_false]
    constructor
    · rintro ⟨⟨c, hc, hf⟩, hflag⟩
      exact ⟨⟨c, hc, hf⟩, (Feature.notDeprecatedFlag_eq_true_iff f).mp hflag⟩
    · rintro ⟨⟨c, hc, hf⟩, hflag⟩
      exact ⟨⟨c, hc, hf⟩, (Feature.notDeprecatedFlag_eq_true_iff f).mpr hflag⟩

/-- Claim C1: an index document that is an object with a `collections` array
of N elements, each with a parseable `sourceInformation` and array-valued
`features`/`templates`, parses to exactly N collections; each collection's
features and templates are the element-wise `filterMap` of its arrays, so an
element failing schema validation is dropped alone while its siblings and
the enclosing collection are retained in original order (the last two
conjuncts make the single-drop splice explicit). -/
theorem claim_C1_index_parse_resilience
    (pS : Json → Option SourceInformation) (pF : Json → Option Feature)
    (pT : Json → Option Template)
    (fields : List (String × Json)) (items : List Json)
    (hcoll : lookupAL fields "collections" = some (Json.arr items))
    (hgood : ∀ v ∈ items, ((v.get "sourceInformation").bind pS).isSome ∧
      (∃ fjs, (v.get "features").bind Json.asArr = some fjs) ∧
      (∃ tjs, (v.get "templates").bind Json.asArr = some tjs)) :
    read_devcontainer_index pS pF pT (.obj fields) =
      .ok { collections := items.filterMap (parseCollection pS pF pT) } ∧
    (items.filterMap (parseCollection pS pF pT)).length = items.length ∧
    (∀ v ∈ items, ∀ si fjs tjs,
      (v.get "sourceInformation").bind pS = some si →
      (v.get "features").bind Json.asArr = some fjs →
      (v.get "templates").bind Json.asArr = some tjs →
      parseCollection pS pF pT v =
        some { source_information := si, features := fjs.filterMap pF,
               templates := tjs.filterMap pT }) ∧
    (∀ (pre post : List Json) (bad : Json), pF bad = none →
      (pre ++ bad :: post).filterMap pF = pre.filterMap pF ++ post.filterMap pF) ∧
    (∀ (pre post : List Json) (bad : Json), pT bad = none →
      (pre ++ bad :: post).filterMap pT = pre.filterMap pT ++ post.filterMap pT) := by
  have hitem : ∀ v ∈ items, ∀ si fjs tjs,
      (v.get "sourceInformation").bind pS = some si →
      (v.get "features").bind Json.asArr = some fjs →
      (v.get "templates").bind Json.asArr = some tjs →
      parseCollection pS pF pT v =
        some { source_information := si, features := fjs.filterMap pF,
               templates := tjs.filterMap pT } := by
    intro v _ si fjs tjs h1 h2 h3
    simp [parseCollection, h1, h2, h3]
  refine ⟨?_, ?_, hitem, ?_, ?_⟩
  · simp [read_devcontainer_index, Json.asObj, hcoll, Json.asArr]
  · refine filterMap_length_all_some _ items ?_
    intro v hv
    rcases hgood v hv with ⟨hsi, ⟨fjs, hf⟩, ⟨tjs, ht⟩⟩
    rcases Option.isSome_iff_exists.mp hsi with ⟨si, hsofi⟩
    rw [hitem v hv si fjs tjs hsofi hf ht]
    rfl
  · intro pre post bad hbad
    simp [List.filterMap_append, List.filterMap_cons, hbad]
  · intro pre post bad hbad
    simp [List.filterMap_append, List.filterMap_cons, hbad]


/-- Witness for Claim C1: parsing `c1Doc` keeps both collections (N = 2) and
drops only the malformed feature and template elements. -/
theorem claim_C1_witness :
    read_devcontainer_index sampleParseSourceInformation sampleParseFeature sampleParseTemplate
      c1Doc = .ok c1Expected ∧
    (c1Items.filterMap
      (parseCollection sampleParseSourceInformation sampleParseFeature sampleParseTemplate)).length
      = c1Items.length := by
  have h := claim_C1_index_parse_resilience sampleParseSourceInformation
    sampleParseFeature sampleParseTemplate
    [("collections", Json.arr c1Items)] c1Items rfl
    (by
      intro v hv
      simp only [c1Items, List.mem_cons, List.not_mem_nil, or_false] at hv
      rcases hv with rfl | rfl
      · exact ⟨rfl, ⟨_, rfl⟩, ⟨_, rfl⟩⟩
      · exact ⟨rfl, ⟨_, rfl⟩, ⟨_, rfl⟩⟩)
  refine ⟨?_, h.2.1⟩
  show read_devcontainer_index sampleParseSourceInformation sampleParseFeature
    sampleParseTemplate (.obj [("collections", Json.arr c1Items)]) = .ok c1Expected
  rw [h.1]
  rfl

/-- Claim C10: a collection element whose `sourceInformation` parses but
whose `features` or `templates` field is missing or not an array is dropped
in its entirety — it contributes no collection, hence none of its features
or templates — while every other element is still parsed; so a failed
`sourceInformation` parse is not the only whole-collection skip condition. -/
theorem claim_C10_collection_skip_conditions
    (pS : Json → Option SourceInformation) (pF : Json → Option Feature)
    (pT : Json → Option Template)
    (fields : List (String × Json)) (pre post : List Json) (v : Json)
    (si : SourceInformation)
    (hcoll : lookupAL fields "collections" = some (Json.arr (pre ++ v :: post)))
    (hsi : (v.get "sourceInformation").bind pS = some si)
    (hbad : (v.get "features").bind Json.asArr = none ∨
            (v.get "templates").bind Json.asArr = none) :
    parseCollection pS pF pT v = none ∧
    read_devcontainer_index pS pF pT (.obj fields) =
      .ok { collections :=
        pre.filterMap (parseCollection pS pF pT) ++
        post.filterMap (parseCollection pS pF pT) } := by
  have hnone : parseCollection pS pF pT v = none := by
    rcases hbad with h | h
    · simp [parseCollection, hsi, h]
    · cases hf : (v.get "features").bind Json.asArr with
      | none => simp [parseCollection, hsi, hf]
      | some fjs => simp [parseCollection, hsi, hf, h]
  refine ⟨hnone, ?_⟩
  simp [read_devcontainer_index, Json.asObj, hcoll, Json.asArr,
    List.filterMap_append, List.filterMap_cons, hnone]

/-- Witness for Claim C10: in the concrete `c10Fields` document, the middle
element (valid `sourceInformation`, string-valued `features`) is dropped
whole while the first and last collections are parsed. -/
theorem claim_C10_witness :
    parseCollection sampleParseSourceInformation sampleParseFeature sampleParseTemplate
      c10Bad = none ∧
    read_devcontainer_index sampleParseSourceInformation sampleParseFeature sampleParseTemplate
      (.obj c10Fields) = .ok c10Expected := by
  have h := claim_C10_collection_skip_conditions sampleParseSourceInformation
    sampleParseFeature sampleParseTemplate
    c10Fields
    [c10Element "first" "ghcr.io/first"] [c10Element "last" "ghcr.io/last"] c10Bad
    { name := "mid", maintainer := "m", contact := "t",
      repository := "r", oci_reference := "ghcr.io/mid" }
    rfl rfl (Or.inl rfl)
  refine ⟨h.1, ?_⟩
  rw [h.2]
  rfl

/-- Unfolding equation for `promptStep`. -/
theorem promptStep_eq (resolve : String → DevOption → DevOptionPromptValue)
    (inner : List (String × Json)) (p : String × DevOption) :
    promptStep resolve inner p =
      (if (resolve p.1 p.2).toStr = p.2.configured_default then inner
       else insertAL inner p.1 (resolve p.1 p.2).toJson) := rfl

/-- Unfolding equation for `keysAL` on a cons cell. -/
theorem keysAL_cons {α : Type} (p : String × α) (tl : List (String × α)) :
    keysAL (p :: tl) = p.1 :: keysAL tl := rfl

/-- Names outside the option list are never added by the prompt fold. -/
theorem promptFold_lookup_notmem (resolve : String → DevOption → DevOptionPromptValue) :
    ∀ (l : List (String × DevOption)) (acc : List (String × Json)) (name : String),
      name ∉ keysAL l →
      lookupAL (l.foldl (promptStep resolve) acc) name = lookupAL acc name := by
  intro l
  induction l with
  | nil => intro acc name _; rfl
  | cons p tl ih =>
      intro acc name h
      rw [keysAL_cons, List.mem_cons, not_or] at h
      obtain ⟨hne, htl⟩ := h
      rw [List.foldl_cons, ih _ name htl, promptStep_eq]
      by_cases hskip : (resolve p.1 p.2).toStr = p.2.configured_default
      · rw [if_pos hskip]
      · rw [if_neg hskip]
        exact lookupAL_insertAL_ne _ _ _ _ (fun he => hne he.symm)

/-- A declared option's entry after the prompt fold: present with the
resolved JSON value exactly when the resolved value's string form differs
from the configured default. -/
theorem promptFold_lookup_mem (resolve : String → DevOption → DevOptionPromptValue) :
    ∀ (l : List (String × DevOption)) (acc : List (String × Json)) (name : String)
      (dev : DevOption), (keysAL l).Nodup → (name, dev) ∈ l →
      lookupAL (l.foldl (promptStep resolve) acc) name =
        (if (resolve name dev).toStr = dev.configured_default then lookupAL acc name
         else some (resolve name dev).toJson) := by
  intro l
  induction l with
  | nil => intro acc name dev _ h; simp at h
  | cons p tl ih =>
      intro acc name dev hnd hmem
      rw [keysAL_cons] at hnd
      have hnotin := (List.nodup_cons.mp hnd).1
      have hnd' := (List.nodup_cons.mp hnd).2
      rcases List.mem_cons.mp hmem with heq | htl
      · have hp1 : p.1 = name := by rw [← heq]
        have hp2 : p.2 = dev := by rw [← heq]
        rw [List.foldl_cons, promptFold_lookup_notmem resolve tl _ name (hp1 ▸ hnotin),
          promptStep_eq, hp1, hp2]
        by_cases hskip : (resolve name dev).toStr = dev.configured_default
        · rw [if_pos hskip, if_pos hskip]
        · rw [if_neg hskip, if_neg hskip, lookupAL_insertAL_self]
      · have hne : p.1 ≠ name := by
          intro he
          exact hnotin (he ▸ (by
            have : name ∈ keysAL tl := List.mem_map_of_mem (fun q => q.1) htl
            exact this))
        rw [List.foldl_cons, ih _ name dev hnd' htl, promptStep_eq]
        by_cases hskip : (resolve p.1 p.2).toStr = p.2.configured_default
        · rw [if_pos hskip]
        · rw [if_neg hskip]
          by_cases hskip2 : (resolve name dev).toStr = dev.configured_default
          · rw [if_pos hskip2, if_pos hskip2, lookupAL_insertAL_ne _ _ _ _ hne]
          · rw [if_neg hskip2, if_neg hskip2]

/-- Claim C6: after a prompt round for a feature, the accumulator maps the
key `"{id}:{majorVersion}"` to an object containing exactly the declared
options whose resolved value stringifies differently from
`configured_default()`; an option resolving to its default string is absent,
and undeclared names are absent. -/
theorem claim_C6_nondefault_only
    (feature : Feature) (resolve : String → DevOption → DevOptionPromptValue)
    (fb : FeatureEntryBuilder)
    (hnd : (keysAL (feature.options.getD [])).Nodup) :
    featureKey feature = feature.id ++ ":" ++ feature.major_version ∧
    lookupAL (fb.use_prompt_values feature resolve).features (featureKey feature)
      = some (Json.obj (promptedEntries feature resolve)) ∧
    (∀ name dev, (name, dev) ∈ feature.options.getD [] →
      lookupAL (promptedEntries feature resolve) name =
        (if (resolve name dev).toStr = dev.configured_default then none
         else some (resolve name dev).toJson)) ∧
    (∀ name, name ∉ keysAL (feature.options.getD []) →
      lookupAL (promptedEntries feature resolve) name = none) := by
  refine ⟨rfl, lookupAL_insertAL_self _ _ _, ?_, ?_⟩
  · intro name dev hmem
    exact promptFold_lookup_mem resolve _ [] name dev hnd hmem
  · intro name hname
    exact promptFold_lookup_notmem resolve _ [] name hname

/-- Witness for Claim C6: for `c6Feature` under `c6Resolve`, the recorded
object keeps the non-default `moby = false` and omits `version`, which
resolved to its default. -/
theorem claim_C6_witness :
    lookupAL (FeatureEntryBuilder.use_prompt_values { features := [] } c6Feature c6Resolve).features
      "docker-in-docker:2" = some (Json.obj [("moby", Json.bool false)]) ∧
    lookupAL (promptedEntries c6Feature c6Resolve) "moby" = some (Json.bool false) ∧
    lookupAL (promptedEntries c6Feature c6Resolve) "version" = none := by
  have h := claim_C6_nondefault_only c6Feature c6Resolve { features := [] } (by decide)
  refine ⟨?_, ?_, ?_⟩
  · have h2 := h.2.1
    rw [show featureKey c6Feature = "docker-in-docker:2" from rfl] at h2
    rw [h2]
    rfl
  · have h3 := h.2.2.1 "moby" (DevOption.boolean (.string "true") none) (by simp [c6Feature])
    rw [h3]
    rfl
  · have h3 := h.2.2.1 "version" (DevOption.string (.proposals (some "latest") none none))
      (by simp [c6Feature])
    rw [h3]
    rfl

/-- Claim C7: the accumulator grows monotonically — after any sequence of
prompt/default rounds (repeated feature identities included), every
previously recorded key is still present and the length never decreases. -/
theorem claim_C7_monotone_growth (fb : FeatureEntryBuilder) (ops : List FeatureEntryOp) :
    (∀ k, k ∈ keysAL fb.features → k ∈ keysAL (fb.runOps ops).features) ∧
    fb.len ≤ (fb.runOps ops).len := by
  induction ops generalizing fb with
  | nil => exact ⟨fun k hk => hk, le_refl _⟩
  | cons op tl ih =>
      have hstep : (∀ k, k ∈ keysAL fb.features → k ∈ keysAL (fb.applyOp op).features) ∧
          fb.len ≤ (fb.applyOp op).len := by
        cases op with
        | prompt feature resolve =>
            exact ⟨fun k hk => keysAL_insertAL_mono _ _ _ _ hk, length_insertAL_ge _ _ _⟩
        | defaults feature =>
            exact ⟨fun k hk => keysAL_insertAL_mono _ _ _ _ hk, length_insertAL_ge _ _ _⟩
      have hrun : fb.runOps (op :: tl) = (fb.applyOp op).runOps tl := rfl
      rw [hrun]
      exact ⟨fun k hk => (ih (fb.applyOp op)).1 k (hstep.1 k hk),
        le_trans hstep.2 (ih (fb.applyOp op)).2⟩

/-- Witness for Claim C7: starting from an accumulator holding
`docker-in-docker:2`, a defaults round and a prompt round that both reuse
that same identity keep the key present and never shrink the map. -/
theorem claim_C7_witness :
    ("docker-in-docker:2" ∈ keysAL ((FeatureEntryBuilder.runOps
      { features := [("docker-in-docker:2", Json.obj [])] }
      [.defaults c6Feature, .prompt c6Feature c6Resolve]).features)) ∧
    (FeatureEntryBuilder.len { features := [("docker-in-docker:2", Json.obj [])] } ≤
      (FeatureEntryBuilder.runOps { features := [("docker-in-docker:2", Json.obj [])] }
        [.defaults c6Feature, .prompt c6Feature c6Resolve]).len) := by
  have h := claim_C7_monotone_growth { features := [("docker-in-docker:2", Json.obj [])] }
    [.defaults c6Feature, .prompt c6Feature c6Resolve]
  exact ⟨h.1 "docker-in-docker:2" (by simp [keysAL]), h.2⟩

/-- The placeholder literal head, byte by byte. -/
theorem templateOptionLit_eq :
    templateOptionLit = [36, 123, 116, 101, 109, 112, 108, 97, 116, 101, 79, 112, 116, 105, 111, 110, 58] := by
  decide

/-- `dropWhile` passes over a block of satisfying elements. -/
theorem dropWhile_append_all {α : Type} (p : α → Bool) (l1 l2 : List α)
    (h : ∀ x ∈ l1, p x = true) : (l1 ++ l2).dropWhile p = l2.dropWhile p := by
  induction l1 with
  | nil => rfl
  | cons x tl ih =>
      rw [List.cons_append, List.dropWhile_cons, if_pos (h x (by simp))]
      exact ih (fun a ha => h a (by simp [ha]))

/-- `dropWhile` stops at a failing head. -/
theorem dropWhile_cons_false {α : Type} (p : α → Bool) (x : α) (l : List α)
    (h : p x = false) : (x :: l).dropWhile p = x :: l := by
  rw [List.dropWhile_cons, if_neg (by simp [h])]

/-- `takeWhile` takes a whole block of satisfying elements. -/
theorem takeWhile_append_all {α : Type} (p : α → Bool) (l1 l2 : List α)
    (h : ∀ x ∈ l1, p x = true) : (l1 ++ l2).takeWhile p = l1 ++ l2.takeWhile p := by
  induction l1 with
  | nil => rfl
  | cons x tl ih =>
      rw [List.cons_append, List.takeWhile_cons, if_pos (h x (by simp)), List.cons_append,
        ih (fun a ha => h a (by simp [ha]))]

/-- `takeWhile` stops at a failing head. -/
theorem takeWhile_cons_false {α : Type} (p : α → Bool) (x : α) (l : List α)
    (h : p x = false) : (x :: l).takeWhile p = [] := by
  rw [List.takeWhile_cons, if_neg (by simp [h])]

/-- A word byte is not a whitespace byte. -/
theorem word_not_ws (x : Nat) (h : isWordByte x = true) : isWsByte x = false := by
  simp only [isWordByte, Bool.or_eq_true, Bool.and_eq_true, decide_eq_true_eq,
    beq_iff_eq] at h
  simp only [isWsByte, Bool.or_eq_false_iff, beq_eq_false_iff_ne, ne_eq]
  omega

/-- A whitespace byte is not a word byte. -/
theorem ws_not_word (x : Nat) (h : isWsByte x = true) : isWordByte x = false := by
  simp only [isWsByte, Bool.or_eq_true, beq_iff_eq] at h
  simp only [isWordByte, Bool.or_eq_false_iff, Bool.and_eq_false_iff,
    decide_eq_false_iff_not, beq_eq_false_iff_ne, ne_eq, not_le]
  omega

/-- A list is a `isPrefixOf`-prefix of itself followed by anything. -/
theorem isPrefixOf_append_self (l1 l2 : List Nat) : l1.isPrefixOf (l1 ++ l2) = true := by
  induction l1 with
  | nil => cases l2 <;> rfl
  | cons x tl ih => simp [List.isPrefixOf, ih]

/-- `dropWhile` never lengthens a list. -/
theorem length_dropWhile_le2 {α : Type} (p : α → Bool) (l : List α) :
    (l.dropWhile p).length ≤ l.length := by
  induction l with
  | nil => exact le_refl _
  | cons x tl ih =>
      rw [List.dropWhile_cons]
      by_cases h : p x = true
      · rw [if_pos h]
        exact le_trans ih (Nat.le_succ _)
      · rw [if_neg (by simpa using h)]

/-- The scanner matches a well-formed placeholder at the head of the input
and returns exactly the name and the bytes after the closing brace. -/
theorem matchPlaceholder_spec (ws1 name ws2 b : List Nat)
    (hws1 : ∀ x ∈ ws1, isWsByte x = true) (hname : name ≠ [])
    (hword : ∀ x ∈ name, isWordByte x = true) (hws2 : ∀ x ∈ ws2, isWsByte x = true) :
    matchPlaceholder (templateOptionLit ++ (ws1 ++ (name ++ (ws2 ++ 125 :: b)))) =
      some (name, b) := by
  have hdrop : (templateOptionLit ++ (ws1 ++ (name ++ (ws2 ++ 125 :: b)))).drop
      templateOptionLit.length = ws1 ++ (name ++ (ws2 ++ 125 :: b)) := List.drop_left _ _
  have hr1 : (ws1 ++ (name ++ (ws2 ++ 125 :: b))).dropWhile isWsByte =
      name ++ (ws2 ++ 125 :: b) := by
    rw [dropWhile_append_all _ _ _ hws1]
    cases name with
    | nil => exact absurd rfl hname
    | cons n0 ntl =>
        exact dropWhile_cons_false _ _ _ (word_not_ws n0 (hword n0 (by simp)))
  have htail0 : (ws2 ++ 125 :: b).takeWhile isWordByte = [] := by
    cases ws2 with
    | nil => exact takeWhile_cons_false _ _ _ (by decide)
    | cons w0 wtl =>
        exact takeWhile_cons_false _ _ _ (ws_not_word w0 (hws2 w0 (by simp)))
  have htake : (name ++ (ws2 ++ 125 :: b)).takeWhile isWordByte = name := by
    rw [takeWhile_append_all _ _ _ hword, htail0, List.append_nil]
  have hdropword : (name ++ (ws2 ++ 125 :: b)).dropWhile isWordByte = ws2 ++ 125 :: b := by
    rw [dropWhile_append_all _ _ _ hword]
    cases ws2 with
    | nil => exact dropWhile_cons_false _ _ _ (by decide)
    | cons w0 wtl =>
        exact dropWhile_cons_false _ _ _ (ws_not_word w0 (hws2 w0 (by simp)))
  have hdropws2 : (ws2 ++ 125 :: b).dropWhile isWsByte = 125 :: b := by
    rw [dropWhile_append_all _ _ _ hws2]
    exact dropWhile_cons_false _ _ _ (by decide)
  unfold matchPlaceholder
  rw [if_pos (isPrefixOf_append_self _ _), hdrop, hr1, htake, hdropword, hdropws2,
    if_neg hname]

/-- The scanner fails on input not starting with the dollar byte. -/
theorem matchPlaceholder_none_head (b0 : Nat) (rest : List Nat) (hb : b0 ≠ 36) :
    matchPlaceholder (b0 :: rest) = none := by
  unfold matchPlaceholder
  rw [if_neg]
  rw [templateOptionLit_eq]
  simp only [List.isPrefixOf, Bool.and_eq_true, beq_iff_eq]
  intro hcon
  exact hb hcon.1.symm

/-- A successful scanner match consumes at least one byte. -/
theorem matchPlaceholder_tail_lt (l name tail : List Nat)
    (h : matchPlaceholder l = some (name, tail)) : tail.length < l.length := by
  unfold matchPlaceholder at h
  by_cases hp : templateOptionLit.isPrefixOf l
  · rw [if_pos hp] at h
    by_cases hemp : ((l.drop templateOptionLit.length).dropWhile isWsByte).takeWhile isWordByte = []
    · rw [if_pos hemp] at h
      exact absurd h (by simp)
    · rw [if_neg hemp] at h
      cases hr3 : (((l.drop templateOptionLit.length).dropWhile isWsByte).dropWhile
          isWordByte).dropWhile isWsByte with
      | nil =>
          rw [hr3] at h
          exact absurd h (by simp)
      | cons c ctl =>
          rw [hr3] at h
          have h1 : (c :: ctl).length ≤
              (((l.drop templateOptionLit.length).dropWhile isWsByte).dropWhile isWordByte).length := by
            rw [← hr3]
            exact length_dropWhile_le2 _ _
          have h2 : (((l.drop templateOptionLit.length).dropWhile isWsByte).dropWhile
              isWordByte).length ≤ ((l.drop templateOptionLit.length).dropWhile isWsByte).length :=
            length_dropWhile_le2 _ _
          have h3 : ((l.drop templateOptionLit.length).dropWhile isWsByte).length ≤
              (l.drop templateOptionLit.length).length := length_dropWhile_le2 _ _
          have h4 : (l.drop templateOptionLit.length).length ≤ l.length := by
            rw [List.length_drop]
            omega
          have htail : tail = ctl := by
            by_cases hc : c = 125
            · subst hc
              simp only [Option.some.injEq, Prod.mk.injEq] at h
              exact h.2.symm
            · exact absurd h (by
                cases c with
                | zero => simp
                | succ n => simp_all [Nat.succ_inj])
          subst htail
          simp only [List.length_cons] at h1
          omega
  · rw [if_neg hp] at h
    exact absurd h (by simp)

/-- The scanner on the empty input, any fuel. -/
theorem substituteGo_nil (ctx : List (String × String)) (g : Nat) :
    substituteGo ctx g [] = [] := by
  cases g <;> rfl

/-- One unfolding step of the fuelled scanner. -/
theorem substituteGo_succ_cons (ctx : List (String × String)) (fuel b0 : Nat)
    (rest : List Nat) :
    substituteGo ctx (fuel + 1) (b0 :: rest) =
      (match matchPlaceholder (b0 :: rest) with
       | some (name, tail) => lookupReplacement ctx name ++ substituteGo ctx fuel tail
       | none => b0 :: substituteGo ctx fuel rest) := rfl

/-- The scanner result does not depend on the fuel once the fuel covers the
input length. -/
theorem substituteGo_fuel_eq (ctx : List (String × String)) :
    ∀ (f g : Nat) (l : List Nat), l.length ≤ f → l.length ≤ g →
      substituteGo ctx f l = substituteGo ctx g l := by
  intro f
  induction f with
  | zero =>
      intro g l hf _
      have : l = [] := List.eq_nil_of_length_eq_zero (Nat.le_zero.mp hf)
      subst this
      rw [substituteGo_nil, substituteGo_nil]
  | succ f ih =>
      intro g l hf hg
      cases l with
      | nil => rw [substituteGo_nil, substituteGo_nil]
      | cons b0 rest =>
          cases g with
          | zero => simp at hg
          | succ g' =>
              rw [substituteGo_succ_cons, substituteGo_succ_cons]
              cases hm : matchPlaceholder (b0 :: rest) with
              | none =>
                  simp only [List.length_cons] at hf hg
                  show b0 :: substituteGo ctx f rest = b0 :: substituteGo ctx g' rest
                  rw [ih g' rest (by omega) (by omega)]
              | some p =>
                  obtain ⟨name, tail⟩ := p
                  have ht := matchPlaceholder_tail_lt _ _ _ hm
                  simp only [List.length_cons] at hf hg ht
                  show lookupReplacement ctx name ++ substituteGo ctx f tail =
                    lookupReplacement ctx name ++ substituteGo ctx g' tail
                  rw [ih g' tail (by omega) (by omega)]

/-- `substitute` at a position where the scanner matches: emit the
replacement and continue after the match. -/
theorem substitute_cons_match (ctx : List (String × String)) (b0 : Nat)
    (rest name tail : List Nat)
    (hm : matchPlaceholder (b0 :: rest) = some (name, tail)) :
    substitute ctx (b0 :: rest) = lookupReplacement ctx name ++ substitute ctx tail := by
  show substituteGo ctx (b0 :: rest).length (b0 :: rest) = _
  rw [show (b0 :: rest).length = rest.length + 1 from rfl, substituteGo_succ_cons, hm]
  have ht := matchPlaceholder_tail_lt _ _ _ hm
  simp only [List.length_cons] at ht
  show lookupReplacement ctx name ++ substituteGo ctx rest.length tail =
    lookupReplacement ctx name ++ substitute ctx tail
  rw [substituteGo_fuel_eq ctx rest.length tail.length tail (by omega) (le_refl _)]
  rfl

/-- `substitute` at a position where the scanner does not match: emit the
byte and continue. -/
theorem substitute_cons_nomatch (ctx : List (String × String)) (b0 : Nat)
    (rest : List Nat) (hm : matchPlaceholder (b0 :: rest) = none) :
    substitute ctx (b0 :: rest) = b0 :: substitute ctx rest := by
  show substituteGo ctx (rest.length + 1) (b0 :: rest) = _
  rw [substituteGo_succ_cons, hm]
  rfl

/-- Claim C3: placeholder substitution replaces each occurrence of the
placeholder pattern (literal head, optional whitespace, `\w+` name,
optional whitespace, closing brace) by the context value bound to the name
— the empty string when the name is unbound — and is a total function, so
an unresolved name never aborts materialization; in particular
"Hello $\x7btemplateOption: name \x7d" yields "Hello World" under
`name = World` and "Hello " under the empty context. -/
theorem claim_C3_placeholder_substitution :
    (∀ (ctx : List (String × String)) (a ws1 name ws2 b : List Nat),
      (∀ x ∈ a, x ≠ 36) → (∀ x ∈ ws1, isWsByte x = true) → name ≠ [] →
      (∀ x ∈ name, isWordByte x = true) → (∀ x ∈ ws2, isWsByte x = true) →
      substitute ctx (a ++ (templateOptionLit ++ (ws1 ++ (name ++ (ws2 ++ 125 :: b))))) =
        a ++ (lookupReplacement ctx name ++ substitute ctx b)) ∧
    (∀ (ctx : List (String × String)) (name : List Nat),
      lookupAL ctx (bytesToStr name) = none → lookupReplacement ctx name = []) ∧
    substitute [("name", "World")] (strBytes "Hello $\x7btemplateOption: name \x7d") =
      strBytes "Hello World" ∧
    substitute [] (strBytes "Hello $\x7btemplateOption: name \x7d") = strBytes "Hello " := by
  refine ⟨?_, ?_, by decide, by decide⟩
  · intro ctx a ws1 name ws2 b ha hws1 hname hword hws2
    induction a with
    | nil =>
        simp only [List.nil_append]
        have hm := matchPlaceholder_spec ws1 name ws2 b hws1 hname hword hws2
        rw [templateOptionLit_eq] at hm ⊢
        simp only [List.cons_append] at hm ⊢
        exact substitute_cons_match ctx 36 _ name b hm
    | cons x a' ih =>
        have hm := matchPlaceholder_none_head x
          (a' ++ (templateOptionLit ++ (ws1 ++ (name ++ (ws2 ++ 125 :: b)))))
          (ha x (by simp))
        rw [List.cons_append, substitute_cons_nomatch ctx x _ hm,
          ih (fun y hy => ha y (by simp [hy])), List.cons_append]
  · intro ctx name h
    simp [lookupReplacement, h]

/-- Witness for Claim C3: the decomposition applied to the concrete input
"Hello " + placeholder for `name` (with inner spaces) under the context
`name = World`, and the unbound-name case under the empty context. -/
theorem claim_C3_witness :
    substitute [("name", "World")]
      (strBytes "Hello " ++ (templateOptionLit ++ ([32] ++ (strBytes "name" ++ ([32] ++ 125 :: []))))) =
      strBytes "Hello " ++ (lookupReplacement [("name", "World")] (strBytes "name") ++
        substitute [("name", "World")] []) ∧
    lookupReplacement [] (strBytes "name") = [] := by
  constructor
  · exact claim_C3_placeholder_substitution.1 [("name", "World")] (strBytes "Hello ")
      [32] (strBytes "name") [32] [] (by decide) (by decide) (by decide) (by decide) (by decide)
  · exact claim_C3_placeholder_substitution.2.1 [] (strBytes "name") (by decide)

/-- Extending with entries whose keys avoid `k` leaves `k`'s value alone. -/
theorem lookupAL_extendAL_notmem {α : Type} (fs adds : List (String × α)) (k : String)
    (h : k ∉ keysAL adds) : lookupAL (extendAL fs adds) k = lookupAL fs k := by
  induction adds generalizing fs with
  | nil => rfl
  | cons p tl ih =>
      rw [keysAL_cons, List.mem_cons, not_or] at h
      show lookupAL (extendAL (insertAL fs p.1 p.2) tl) k = lookupAL fs k
      rw [ih _ h.2, lookupAL_insertAL_ne _ _ _ _ (fun he => h.1 he.symm)]

/-- `Map::extend` semantics on lookups: an extending entry wins over an
existing entry under the same key; other keys fall back to the original
map. -/
theorem lookupAL_extendAL {α : Type} (fs fm : List (String × α))
    (hnd : (keysAL fm).Nodup) (k : String) :
    lookupAL (extendAL fs fm) k = preferAL (lookupAL fm k) (lookupAL fs k) := by
  induction fm generalizing fs with
  | nil => rfl
  | cons p tl ih =>
      rw [keysAL_cons] at hnd
      have h1 := (List.nodup_cons.mp hnd).1
      have h2 := (List.nodup_cons.mp hnd).2
      show lookupAL (extendAL (insertAL fs p.1 p.2) tl) k = _
      by_cases hk : p.1 = k
      · subst hk
        rw [lookupAL_extendAL_notmem _ _ _ h1, lookupAL_insertAL_self]
        have hhd : lookupAL (p :: tl) p.1 = some p.2 := by simp [lookupAL]
        rw [hhd]
        rfl
      · rw [ih _ h2]
        have hhd : lookupAL (p :: tl) k = lookupAL tl k := by simp [lookupAL, hk]
        rw [hhd, lookupAL_insertAL_ne _ _ _ _ hk]

/-- After updating key `k` in place, `k` resolves to the new value (when it
was present). -/
theorem lookupAL_updateAL_self {α : Type} (m : List (String × α)) (k : String) (v : α)
    (h : (lookupAL m k).isSome) : lookupAL (updateAL m k v) k = some v := by
  induction m with
  | nil => simp [lookupAL] at h
  | cons p tl ih =>
      have step : updateAL (p :: tl) k v =
          (if p.1 = k then (k, v) else p) :: updateAL tl k v := rfl
      rw [step]
      by_cases hk : p.1 = k
      · rw [if_pos hk]
        simp [lookupAL]
      · rw [if_neg hk]
        have h' : (lookupAL tl k).isSome := by simpa [lookupAL, hk] using h
        simp [lookupAL, hk, ih h']

/-- Updating key `k` in place leaves every other key's value unchanged. -/
theorem lookupAL_updateAL_ne {α : Type} (m : List (String × α)) (k k' : String) (v : α)
    (h : k' ≠ k) : lookupAL (updateAL m k v) k' = lookupAL m k' := by
  induction m with
  | nil => rfl
  | cons p tl ih =>
      have step : updateAL (p :: tl) k v =
          (if p.1 = k then (k, v) else p) :: updateAL tl k v := rfl
      rw [step]
      by_cases hk : p.1 = k
      · rw [if_pos hk]
        simp [lookupAL, Ne.symm h, hk, ih]
      · rw [if_neg hk]
        by_cases hk' : p.1 = k'
        · simp [lookupAL, hk']
        · simp [lookupAL, hk', ih]

/-- Claim C4: single-file eligibility never holds for `DockerCompose` or
`Dockerfile` templates, and holds for an `Image` template exactly when
`fileCount` is absent or at most 4; together with `attemptSingleFile` it
decides retargeting — concretely, an Image template with `fileCount = 5`
keeps `.devcontainer/devcontainer.json` while one with `fileCount = 3` is
retargeted to `.devcontainer.json`. -/
theorem claim_C4_single_file_eligibility :
    (∀ t : Template,
      (t.template_type = some .dockerCompose ∨ t.template_type = some .dockerfile) →
      is_single_file_eligible (some t) = false) ∧
    (∀ t : Template, t.template_type = some .image →
      (is_single_file_eligible (some t) = true ↔
        (t.file_count = none ∨ ∃ c, t.file_count = some c ∧ c ≤ 4))) ∧
    (∀ parseJsonc, apply_context_and_features parseJsonc (c4Builder 5) true [] =
      .ok [.writeFile [".devcontainer", "devcontainer.json"] (strBytes "\x7b\x7d")]) ∧
    (∀ parseJsonc, apply_context_and_features parseJsonc (c4Builder 3) true [] =
      .ok [.writeFile [".devcontainer.json"] (strBytes "\x7b\x7d")]) := by
  refine ⟨?_, ?_, fun parseJsonc => rfl, fun parseJsonc => rfl⟩
  · intro t h
    rcases h with h | h <;> simp [is_single_file_eligible, h]
  · intro t h
    cases hc : t.file_count with
    | none => simp [is_single_file_eligible, h, hc]
    | some c =>
        simp only [is_single_file_eligible, h, hc]
        by_cases hgt : c > 4
        · rw [if_pos hgt]
          simp only [Bool.false_eq_true, false_iff, not_or]
          refine ⟨by simp, ?_⟩
          rintro ⟨c', hc', hle⟩
          rw [Option.some_inj] at hc'
          omega
        · rw [if_neg hgt]
          simp only [true_iff]
          exact Or.inr ⟨c, rfl, by omega⟩

/-- Witness for Claim C4: a DockerCompose template is never eligible; an
Image template with `fileCount = 3` is eligible; with `attemptSingleFile`,
the `fileCount = 5` builder keeps the original configuration path while the
`fileCount = 3` builder is retargeted to `.devcontainer.json`. -/
theorem claim_C4_witness :
    is_single_file_eligible (some
      { id := "t", version := "1.0.0", name := "T", options := none,
        template_type := some .dockerCompose, file_count := none, owner := "o" }) = false ∧
    is_single_file_eligible (some
      { id := "t", version := "1.0.0", name := "T", options := none,
        template_type := some .image, file_count := some 3, owner := "o" }) = true ∧
    apply_context_and_features (fun _ => none) (c4Builder 5) true [] =
      .ok [.writeFile [".devcontainer", "devcontainer.json"] (strBytes "\x7b\x7d")] ∧
    apply_context_and_features (fun _ => none) (c4Builder 3) true [] =
      .ok [.writeFile [".devcontainer.json"] (strBytes "\x7b\x7d")] := by
  refine ⟨claim_C4_single_file_eligibility.1 _ (Or.inl rfl), ?_,
    claim_C4_single_file_eligibility.2.2.1 _, claim_C4_single_file_eligibility.2.2.2 _⟩
  exact (claim_C4_single_file_eligibility.2.1 _ rfl).mpr (Or.inr ⟨3, rfl, by omega⟩)

/-- Claim C5: with a non-empty accumulator and an object-valued parsed
configuration — if `features` exists as an object it is extended with the
accumulated entries (accumulated entries win on key collision) and all other
top-level keys are preserved; otherwise a `features` key is inserted holding
exactly the accumulator's map; the output is serialized with tab
indentation (the repository's own test vector, and the full walk on a
one-entry builder). -/
theorem claim_C5_feature_merge
    (fields fm : List (String × Json)) (hnd : (keysAL fm).Nodup) :
    (∀ fs, lookupAL fields "features" = some (.obj fs) →
      mergeFeaturesIntoConfig (.obj fields) fm =
        .ok (.obj (updateAL fields "features" (.obj (extendAL fs fm)))) ∧
      lookupAL (updateAL fields "features" (.obj (extendAL fs fm))) "features" =
        some (.obj (extendAL fs fm)) ∧
      (∀ k, k ≠ "features" →
        lookupAL (updateAL fields "features" (.obj (extendAL fs fm))) k =
          lookupAL fields k) ∧
      (∀ k, lookupAL (extendAL fs fm) k =
        preferAL (lookupAL fm k) (lookupAL fs k))) ∧
    ((lookupAL fields "features" = none ∨
      (∃ x, lookupAL fields "features" = some x ∧ x.asObj = none)) →
      mergeFeaturesIntoConfig (.obj fields) fm =
        .ok (.obj (insertAL fields "features" (.obj fm))) ∧
      lookupAL (insertAL fields "features" (.obj fm)) "features" = some (.obj fm) ∧
      (∀ k, k ≠ "features" →
        lookupAL (insertAL fields "features" (.obj fm)) k = lookupAL fields k)) ∧
    serializeTabs (.obj [("test", .obj [("deep", .num 1)])]) =
      "\x7b\n\t\"test\": \x7b\n\t\t\"deep\": 1\n\t\x7d\n\x7d" ∧
    apply_context_and_features (fun _ => some (Json.obj [("name", Json.str "x")]))
      c5Builder false [] =
      .ok [.writeFile [".devcontainer", "devcontainer.json"]
        (strBytes "\x7b\n\t\"name\": \"x\",\n\t\"features\": \x7b\n\t\t\"f:1\": \x7b\x7d\n\t\x7d\n\x7d")] := by
  refine ⟨?_, ?_, rfl, rfl⟩
  · intro fs h
    refine ⟨by simp [mergeFeaturesIntoConfig, h], ?_, ?_, fun k => lookupAL_extendAL fs fm hnd k⟩
    · exact lookupAL_updateAL_self _ _ _ (by rw [h]; rfl)
    · intro k hk
      exact lookupAL_updateAL_ne _ _ _ _ hk
  · intro hcase
    refine ⟨?_, lookupAL_insertAL_self _ _ _, ?_⟩
    · rcases hcase with h | ⟨x, h, hno⟩
      · simp [mergeFeaturesIntoConfig, h]
      · cases x <;> simp_all [mergeFeaturesIntoConfig, Json.asObj]
    · intro k hk
      exact lookupAL_insertAL_ne _ _ _ _ (fun he => hk he.symm)

/-- Witness for Claim C5: merging the accumulator entry `f:1` (with a
non-default option) into a document whose `features` object already holds
`old:1` and a colliding `f:1`: the accumulated entry wins the collision,
the sibling `old:1` survives, and the unrelated top-level `name` key is
preserved. -/
theorem claim_C5_witness :
    mergeFeaturesIntoConfig
      (.obj [("name", .str "x"),
             ("features", .obj [("old:1", .obj []), ("f:1", .str "keep")])])
      [("f:1", Json.obj [("opt", Json.bool true)])] =
      .ok (.obj (updateAL
        [("name", .str "x"),
         ("features", .obj [("old:1", .obj []), ("f:1", .str "keep")])]
        "features"
        (.obj (extendAL [("old:1", .obj []), ("f:1", .str "keep")]
          [("f:1", Json.obj [("opt", Json.bool true)])])))) ∧
    lookupAL (extendAL [("old:1", Json.obj []), ("f:1", Json.str "keep")]
      [("f:1", Json.obj [("opt", Json.bool true)])]) "f:1" =
      some (Json.obj [("opt", Json.bool true)]) ∧
    lookupAL (extendAL [("old:1", Json.obj []), ("f:1", Json.str "keep")]
      [("f:1", Json.obj [("opt", Json.bool true)])]) "old:1" = some (Json.obj []) := by
  have h := (claim_C5_feature_merge
    [("name", .str "x"),
     ("features", .obj [("old:1", .obj []), ("f:1", .str "keep")])]
    [("f:1", Json.obj [("opt", Json.bool true)])] (by decide)).1
    [("old:1", .obj []), ("f:1", .str "keep")] rfl
  refine ⟨h.1, ?_, ?_⟩
  · rw [h.2.2.2 "f:1"]
    rfl
  · rw [h.2.2.2 "old:1"]
    rfl

/-- Claim C8: materializing the synthesized empty-start-point archive with
context `imageVariant = bookworm`, an empty accumulator and any target
workspace performs exactly two filesystem actions — creating
`.devcontainer` and writing `.devcontainer/devcontainer.json` with
"bookworm" substituted for the placeholder — and neither touched path ends
with `devcontainer-template.json`, which is on the skip list. -/
theorem claim_C8_empty_start_point (workspace : List String)
    (parseJsonc : List Nat → Option Json) :
    apply_context_and_features parseJsonc
      { create_empty_start_point with context := [("imageVariant", "bookworm")] }
      false workspace =
      .ok [ .createDir (workspace ++ [".devcontainer"]),
            .writeFile (workspace ++ [".devcontainer", "devcontainer.json"])
              (strBytes "\x7b\n\t\"name\": \"tyedev default\",\n\t\"image\": \"mcr.microsoft.com/devcontainers/base:bookworm\"\n\x7d\n") ] ∧
    pathEndsWith (workspace ++ [".devcontainer"]) ["devcontainer-template.json"] = false ∧
    pathEndsWith (workspace ++ [".devcontainer", "devcontainer.json"])
      ["devcontainer-template.json"] = false := by
  refine ⟨?_, ?_, ?_⟩
  · have hsub : substitute [("imageVariant", "bookworm")] emptyStartPointConfigBytes =
        strBytes "\x7b\n\t\"name\": \"tyedev default\",\n\t\"image\": \"mcr.microsoft.com/devcontainers/base:bookworm\"\n\x7d\n" := by
      decide
    simp only [apply_context_and_features, create_empty_start_point, collectActions,
      processEntry, template_skip, pathEndsWith, List.reverse_append, List.reverse_cons,
      List.reverse_nil, List.nil_append, List.cons_append, List.isPrefixOf, List.any_cons,
      List.any_nil, FeatureEntryBuilder.len, List.length_nil, hsub]
    simp [bind, Except.bind, hsub]
  · simp [pathEndsWith, List.reverse_append, List.isPrefixOf]
  · simp [pathEndsWith, List.reverse_append, List.isPrefixOf]
